import Mathlib

/-!
# Verification of the new-relic-osiris refresh-and-correlation pipeline

Shallow embedding of the Go sources (`newrelic.go`, `main.go`, `config.go`)
of the osiris terminal dashboard, together with proofs about the entity
fetcher, the incident correlator, the refresh coordinator, the render
scheduler and the search index.

Go strings are modelled as Lean `String` (the repository only manipulates
them bytewise over ASCII data, where Go byte indices and Lean character
indices agree).  Network and file I/O is modelled by passing the outcome of
each fallible external step as an explicit parameter.  A Go `panic` that
escapes a function is modelled as `Except.error`.
-/

namespace Osiris

/-- Go `strings.ToLower` restricted to its ASCII action: each byte in
`'A'..'Z'` is shifted to the corresponding lower-case byte, everything else
is unchanged (from the Go standard library semantics used at
`newrelic.go:438` and `main.go:282,293`). -/
def goToLowerChar (c : Char) : Char :=
  if 'A' ≤ c ∧ c ≤ 'Z' then Char.ofNat (c.toNat + 32) else c

/-- `strings.ToLower` on a whole string. -/
def goToLower (s : String) : String :=
  ⟨s.data.map goToLowerChar⟩

/-- Go `strings.Contains s sub`: `sub` occurs as a contiguous substring of
`s` (the documented semantics of `strings.Contains`). -/
def goContains (s sub : String) : Bool :=
  decide (sub.data <:+: s.data)

/-- `Entity` from `newrelic.go:14-23` (`Type_` models the Go field `Type`,
a reserved word in Lean). -/
structure Entity where
  Name : String
  GUID : String
  Type_ : String
  HasAlert : Bool
  AlertType : String
  AlertMessage : String
  ConnectionInfo : String
  OS : String
deriving Repr, DecidableEq

/-- The zero value of `Entity` (`&Entity{}` in Go). -/
def Entity.empty : Entity :=
  ⟨"", "", "", false, "", "", "", ""⟩

/-- `EntityList` from `newrelic.go:25-28`. -/
structure EntityList where
  Entities : List Entity
  Error : String
deriving Repr, DecidableEq

/-- `Config` from `config.go`. -/
structure Config where
  APIKey : String
  AccountID : String
  RefreshInterval : Nat
deriving Repr, DecidableEq

/-- Untyped JSON values, the image of Go's
`json.Unmarshal` into `interface\x7b\x7d` (maps become field lists with
distinct keys, slices become lists). -/
inductive Json where
  | null : Json
  | bool (b : Bool) : Json
  | num (n : Int) : Json
  | str (s : String) : Json
  | arr (items : List Json) : Json
  | obj (fields : List (String × Json)) : Json
deriving Repr

/-- Go `v[k].(string)`: look up key `k` and type-assert to a string;
`none` when the key is absent or the value is not a string. -/
def getStr (fields : List (String × Json)) (k : String) : Option String :=
  match fields.lookup k with
  | some (Json.str s) => some s
  | _ => none

/-- Go `v[k].([]interface\x7b\x7d)`. -/
def getArr (fields : List (String × Json)) (k : String) : Option (List Json) :=
  match fields.lookup k with
  | some (Json.arr items) => some items
  | _ => none

/-- Go `v[k].(map[string]interface\x7b\x7d)`. -/
def getObj (fields : List (String × Json)) (k : String) :
    Option (List (String × Json)) :=
  match fields.lookup k with
  | some (Json.obj fs) => some fs
  | _ => none

/-- `incidentGeneric` from `newrelic.go:271-275`. -/
structure incidentGeneric where
  Title : String
  Description : String
  GUIDs : List String
deriving Repr, DecidableEq

/-- The conventional array keys scanned at `newrelic.go:312`. -/
def entityArrayKeys : List String :=
  ["affectedEntities", "impactedEntities", "entities",
   "impacted_entity_list", "affected_entity_list"]

/-- GUIDs pulled from one element of an entity array
(`newrelic.go:314-323`): `entityGuid` then `guid`, when each is a string. -/
def guidsOfArrayItem (item : Json) : List String :=
  match item with
  | Json.obj imap =>
      (match getStr imap "entityGuid" with
       | some g => [g]
       | none => []) ++
      (match getStr imap "guid" with
       | some g => [g]
       | none => [])
  | _ => []

/-- All GUIDs collected for one object node (`newrelic.go:302-325`):
direct `entityGuid` and `guid` keys, then the five conventional array
keys in order. -/
def guidsOfFields (fields : List (String × Json)) : List String :=
  (match getStr fields "entityGuid" with
   | some g => [g]
   | none => []) ++
  (match getStr fields "guid" with
   | some g => [g]
   | none => []) ++
  (entityArrayKeys.map (fun key =>
      match getArr fields key with
      | some arr => (arr.map guidsOfArrayItem).flatten
      | none => [])).flatten

/-- The incident candidate produced at one object node
(`newrelic.go:292-331`): emitted when a `title` or `description` string is
present and at least one GUID was found. -/
def candidateOfFields (fields : List (String × Json)) : List incidentGeneric :=
  let title := (getStr fields "title").getD ""
  let desc := (getStr fields "description").getD ""
  let guids := guidsOfFields fields
  if (title ≠ "" ∨ desc ≠ "") ∧ guids ≠ [] then
    [⟨title, desc, guids⟩]
  else
    []

mutual

/-- The recursive `walk` closure of `extractIncidentsGeneric`
(`newrelic.go:288-342`): at an object node emit the candidate (if any) and
walk every child value; at an array walk every item; scalars contribute
nothing. -/
def walkJson : Json → List incidentGeneric
  | Json.obj fields => candidateOfFields fields ++ walkFields fields
  | Json.arr items => walkItems items
  | _ => []

/-- Walk the values of an object's fields in order. -/
def walkFields : List (String × Json) → List incidentGeneric
  | [] => []
  | (_, v) :: rest => walkJson v ++ walkFields rest

/-- Walk the items of an array in order. -/
def walkItems : List Json → List incidentGeneric
  | [] => []
  | v :: rest => walkJson v ++ walkItems rest

end

/-- `extractIncidentsGeneric` from `newrelic.go:279-346`: the body is first
unmarshalled (`none` models a JSON parse error, which returns `nil`), then
walked. -/
def extractIncidentsGeneric (body : Option Json) : List incidentGeneric :=
  match body with
  | none => []
  | some root => walkJson root

/-- `addTestEntities` from `newrelic.go:454-498`: replaces the entity slice
with the fixed synthetic dataset, keeping the list's error string. -/
def addTestEntities (list : EntityList) : EntityList :=
  { list with Entities :=
    [ { Entity.empty with
        Name := "web-01", Type_ := "HOST", HasAlert := false,
        OS := "Linux", ConnectionInfo := "192.168.1.10" },
      { Entity.empty with
        Name := "api-02", Type_ := "HOST", HasAlert := true,
        AlertType := "CPU High", AlertMessage := "CPU > 85%",
        OS := "Linux", ConnectionInfo := "192.168.1.11" },
      { Entity.empty with
        Name := "db-01", Type_ := "HOST", HasAlert := false,
        OS := "Linux", ConnectionInfo := "192.168.1.12" },
      { Entity.empty with
        Name := "cache-01", Type_ := "HOST", HasAlert := true,
        AlertType := "Memory", AlertMessage := "Memory > 90%",
        OS := "Linux", ConnectionInfo := "192.168.1.13" },
      { Entity.empty with
        Name := "monitor-01", Type_ := "HOST", HasAlert := false,
        OS := "Linux", ConnectionInfo := "192.168.1.14" } ] }

mutual

/-- Go `fmt.Sprintf("%v", x)` on an unmarshalled JSON value, used only to
build the human-readable GraphQL error message at `newrelic.go:128`
(no claim depends on the exact text, only on its use inside a non-empty
message). -/
def goSprintV : Json → String
  | Json.null => "<nil>"
  | Json.bool b => if b then "true" else "false"
  | Json.num n => toString n
  | Json.str s => s
  | Json.arr items => "[" ++ goSprintItems items ++ "]"
  | Json.obj fields => "map[" ++ goSprintFields fields ++ "]"

/-- Render the items of an array, space-separated. -/
def goSprintItems : List Json → String
  | [] => ""
  | [x] => goSprintV x
  | x :: rest => goSprintV x ++ " " ++ goSprintItems rest

/-- Render the fields of a map, space-separated `key:value` pairs. -/
def goSprintFields : List (String × Json) → String
  | [] => ""
  | [(k, v)] => k ++ ":" ++ goSprintV v
  | (k, v) :: rest => k ++ ":" ++ goSprintV v ++ " " ++ goSprintFields rest

end

/-- Outcome of the external steps of `FetchEntities` that happen once the
request object exists: `client.Do` (`newrelic.go:100`), `io.ReadAll`
(`newrelic.go:108`) and `json.Unmarshal` of the response body into a
`map[string]interface\x7b\x7d` (`newrelic.go:120`); `ok` carries the
successfully parsed top-level object (a non-object body is a
`parseErr`). -/
inductive HttpOutcome where
  | httpErr (msg : String)
  | readErr (msg : String)
  | parseErr (msg : String)
  | ok (nrResp : List (String × Json))
deriving Repr

/-- Outcome of the external steps of one `FetchEntities` call, in the
order the Go code observes them: JSON marshalling of the request body
(`newrelic.go:81`), `http.NewRequest` (`newrelic.go:87`), then the
HTTP exchange. -/
inductive FetchOutcome where
  | marshalErr (msg : String)
  | requestErr (msg : String)
  | sent (r : HttpOutcome)
deriving Repr

/-- A Go panic escaping to the caller. -/
structure GoPanic where
  message : String
deriving Repr, DecidableEq

/-- One entity parsed from the search results (`newrelic.go:144-161`):
string fields `name`, `guid`, `entityType` when present, appended only
when the name is non-empty. -/
def parseOneEntity (entityData : Json) : List Entity :=
  match entityData with
  | Json.obj entityMap =>
      let e : Entity :=
        { Entity.empty with
          Name := (getStr entityMap "name").getD "",
          GUID := (getStr entityMap "guid").getD "",
          Type_ := (getStr entityMap "entityType").getD "" }
      if e.Name ≠ "" then [e] else []
  | _ => []

/-- The nested extraction `data.actor.entitySearch.results.entities` of
`FetchEntities` (`newrelic.go:137-167`); any missing or ill-typed level
yields no entities. -/
def parseSearchEntities (nrResp : List (String × Json)) : List Entity :=
  match getObj nrResp "data" with
  | none => []
  | some data =>
    match getObj data "actor" with
    | none => []
    | some actor =>
      match getObj actor "entitySearch" with
      | none => []
      | some search =>
        match getObj search "results" with
        | none => []
        | some results =>
          match getArr results "entities" with
          | none => []
          | some entities => (entities.map parseOneEntity).flatten

/-- `FetchEntities` from `newrelic.go:54-170`.  The network environment is
passed as a `FetchOutcome`.  `Except.error` models a panic escaping to the
caller: the debug log line at `newrelic.go:94` slices `config.APIKey[:10]`,
which panics when the key is shorter than 10 bytes; that line runs after
`http.NewRequest` succeeds and before the HTTP call. -/
def FetchEntities (config : Config) (net : FetchOutcome) :
    Except GoPanic EntityList :=
  let list : EntityList := ⟨[], ""⟩
  if config.APIKey = "" ∨ config.AccountID = "" then
    Except.ok (addTestEntities
      { list with Error := "API key or account ID not configured" })
  else
    match net with
    | FetchOutcome.marshalErr msg =>
        Except.ok (addTestEntities
          { list with Error := "Error marshaling request: " ++ msg })
    | FetchOutcome.requestErr msg =>
        Except.ok (addTestEntities
          { list with Error := "Error creating request: " ++ msg })
    | FetchOutcome.sent r =>
        if config.APIKey.length < 10 then
          Except.error ⟨"runtime error: slice bounds out of range"⟩
        else
          match r with
          | HttpOutcome.httpErr msg =>
              Except.ok (addTestEntities
                { list with Error := "Error fetching from New Relic: " ++ msg })
          | HttpOutcome.readErr msg =>
              Except.ok (addTestEntities
                { list with Error := "Error reading response: " ++ msg })
          | HttpOutcome.parseErr msg =>
              Except.ok (addTestEntities
                { list with Error := "Error parsing response: " ++ msg })
          | HttpOutcome.ok nrResp =>
              match getArr nrResp "errors" with
              | some (e0 :: _) =>
                  Except.ok (addTestEntities
                    { list with Error :=
                        "New Relic API error: " ++ goSprintV e0 })
              | _ =>
                  Except.ok { list with
                    Entities := parseSearchEntities nrResp }

/-! ## Incident correlator (`fetchIncidents`, `fetchViolationsREST`) -/

/-- The loop body of the generic-incident match (`newrelic.go:254-263`):
on a GUID match, set `HasAlert`, overwrite `AlertType` only when the
incident's title is non-empty, and overwrite `AlertMessage`
unconditionally. -/
def applyIncidentTo (inc : incidentGeneric) (e : Entity) : Entity :=
  { e with
    HasAlert := true,
    AlertType := if inc.Title ≠ "" then inc.Title else e.AlertType,
    AlertMessage := inc.Description }

/-- One `(incident, guid)` step of the matching loops at
`newrelic.go:251-265`: every entity whose GUID equals `guid` is updated
in place. -/
def applyGuidMatch (inc : incidentGeneric) (guid : String)
    (entities : List Entity) : List Entity :=
  entities.map (fun e => if e.GUID = guid then applyIncidentTo inc e else e)

/-- The full matching phase of `fetchIncidents` (`newrelic.go:249-265`):
iterate incidents in order, then each incident's GUIDs in order. -/
def matchIncidents (incidents : List incidentGeneric)
    (entities : List Entity) : List Entity :=
  incidents.foldl
    (fun ents inc => inc.GUIDs.foldl
      (fun ents' g => applyGuidMatch inc g ents') ents)
    entities

/-- Entity-name / target-name match used by the REST fallback
(`newrelic.go:438`): case-insensitive substring containment in either
direction. -/
def nameMatches (entityName targetName : String) : Bool :=
  goContains (goToLower entityName) (goToLower targetName) ||
  goContains (goToLower targetName) (goToLower entityName)

/-- The loop body of the violation match (`newrelic.go:439-443`): same
side effect as the generic-incident match, with the violation's
`condition_name` as title and `details` as message. -/
def applyViolationTo (title details : String) (e : Entity) : Entity :=
  { e with
    HasAlert := true,
    AlertType := if title ≠ "" then title else e.AlertType,
    AlertMessage := details }

/-- Target names extracted from one violation object
(`newrelic.go:408-433`), in source order: names from the `targets`
array, then `links.entity`, then `entity_name`, then the nested
`entity` object's `name`. -/
def violationTargetNames (vmap : List (String × Json)) : List String :=
  (match getArr vmap "targets" with
   | some targets => (targets.map (fun ti =>
       match ti with
       | Json.obj tmap =>
           match getStr tmap "name" with
           | some name => [name]
           | none => []
       | _ => [])).flatten
   | none => []) ++
  (match getObj vmap "links" with
   | some links =>
       match getStr links "entity" with
       | some en => [en]
       | none => []
   | none => []) ++
  (match getStr vmap "entity_name" with
   | some ename => [ename]
   | none => []) ++
  (match getObj vmap "entity" with
   | some entObj =>
       match getStr entObj "name" with
       | some en => [en]
       | none => []
   | none => [])

/-- Apply one violation object to the entity list
(`newrelic.go:395-449`): for each extracted target name, update every
entity it matches. -/
def applyViolation (v : Json) (entities : List Entity) : List Entity :=
  match v with
  | Json.obj vmap =>
      let title := (getStr vmap "condition_name").getD ""
      let details := (getStr vmap "details").getD ""
      (violationTargetNames vmap).foldl
        (fun ents tn => ents.map
          (fun e => if nameMatches e.Name tn then applyViolationTo title details e
                    else e))
        entities
  | _ => entities

/-- Outcome of the external steps of one `fetchViolationsREST` call
(`newrelic.go:357-391`): request creation, HTTP exchange, body read and
JSON unmarshal into a map; `ok` carries the parsed top-level object. -/
inductive RestOutcome where
  | requestErr (msg : String)
  | httpErr (msg : String)
  | readErr (msg : String)
  | parseErr (msg : String)
  | ok (respObj : List (String × Json))
deriving Repr

/-- `fetchViolationsREST` from `newrelic.go:349-452`: on any external
failure the entity list is left untouched; otherwise every object in the
`violations` array (absent or ill-typed means the empty list, by the
blank-assignment at `newrelic.go:393`) is matched against the
entities. -/
def fetchViolationsREST (net : RestOutcome) (entities : List Entity) :
    List Entity :=
  match net with
  | RestOutcome.ok respObj =>
      let violations := (getArr respObj "violations").getD []
      violations.foldl (fun ents v => applyViolation v ents) entities
  | _ => entities

/-- Outcome of the external steps of the structured probe inside
`fetchIncidents` (`newrelic.go:193-228`); `body` carries the response
bytes as parsed JSON (`none` when the bytes are not valid JSON, which
makes `extractIncidentsGeneric` return `nil`). -/
inductive ProbeOutcome where
  | marshalErr (msg : String)
  | requestErr (msg : String)
  | httpErr (msg : String)
  | readErr (msg : String)
  | body (b : Option Json)
deriving Repr

/-- Observable result of one `fetchIncidents` call: the final entity
list, how many HTTP requests were issued in total (probe plus any
fallback), and whether the legacy REST fallback was invoked. -/
structure IncidentsResult where
  entities : List Entity
  httpRequests : Nat
  restCalled : Bool
deriving Repr

/-- HTTP requests issued by `fetchViolationsREST` itself: one unless
`http.NewRequest` failed. -/
def restRequestCount : RestOutcome → Nat
  | RestOutcome.requestErr _ => 0
  | _ => 1

/-- `fetchIncidents` from `newrelic.go:172-268`.  The probe response is
always fed to the generic extractor; only when that yields zero
incidents is the legacy REST fallback launched (`newrelic.go:232-247`),
otherwise the incidents are matched to entities by GUID. -/
def fetchIncidents (probe : ProbeOutcome) (restNet : RestOutcome)
    (entities : List Entity) : IncidentsResult :=
  match probe with
  | ProbeOutcome.marshalErr _ => ⟨entities, 0, false⟩
  | ProbeOutcome.requestErr _ => ⟨entities, 0, false⟩
  | ProbeOutcome.httpErr _ => ⟨entities, 1, false⟩
  | ProbeOutcome.readErr _ => ⟨entities, 1, false⟩
  | ProbeOutcome.body b =>
      let incidents := extractIncidentsGeneric b
      if incidents.length = 0 then
        ⟨fetchViolationsREST restNet entities,
         1 + restRequestCount restNet, true⟩
      else
        ⟨matchIncidents incidents entities, 1, false⟩

/-! ## Refresh coordinator, search index and render scheduler (`main.go`) -/

/-- `AppState` from `main.go:17-26` (the mutex is the synchronisation
mechanism, not data, and is not part of the state). -/
structure AppState where
  entities : List Entity
  lastRefresh : Nat
  refreshInProgress : Bool
  selectedIndex : Int
  errMsg : String
  searchQuery : String
  lastSearchPos : Int
deriving Repr, DecidableEq

/-- `refreshEntities` from `main.go:309-346`, up to the publication of
the fetched list.  The fetch result is a parameter; the returned `Bool`
reports whether a fetch was performed.  When the single-flight guard is
taken (`refreshInProgress` already true) the call returns at
`main.go:313` with the state untouched and no fetch. -/
def refreshEntities (st : AppState) (fetched : EntityList) (now : Nat) :
    AppState × Bool :=
  if st.refreshInProgress then
    (st, false)
  else
    ({ st with
       entities := fetched.Entities,
       errMsg := fetched.Error,
       lastRefresh := now,
       refreshInProgress := false },
     true)

/-- The scan start position of `findNextMatch` (`main.go:286-289`):
`lastSearchPos + 1`, clamped below at 0 (Go int arithmetic; the value is
non-negative, so `toNat` is exact). -/
def searchStart (st : AppState) : Nat :=
  (if st.lastSearchPos + 1 < 0 then (0 : Int) else st.lastSearchPos + 1).toNat

/-- The loop predicate of `findNextMatch` (`main.go:293`): the entity
name at `idx`, case-folded, contains the case-folded query. -/
def entityMatchAt (st : AppState) (idx : Nat) : Bool :=
  goContains (goToLower ((st.entities.getD idx Entity.empty).Name))
    (goToLower st.searchQuery)

/-- `findNextMatch` from `main.go:279-299`: if the lowered query is
empty return `-1` at once; otherwise scan `n` consecutive positions
`(searchStart + i) % n`, `i = 0..n-1`, and return the first matching
index (updating `lastSearchPos`) or `-1`. -/
def findNextMatch (st : AppState) : Int × AppState :=
  if goToLower st.searchQuery = "" then
    (-1, st)
  else
    match (List.range st.entities.length).find?
        (fun i => entityMatchAt st
          ((searchStart st + i) % st.entities.length)) with
    | some i =>
        ((((searchStart st + i) % st.entities.length : Nat) : Int),
         { st with lastSearchPos :=
             (((searchStart st + i) % st.entities.length : Nat) : Int) })
    | none => (-1, st)

/-- Status line set by `updateListView` (`main.go:362-373`). -/
inductive StatusLine where
  | fetching
  | error (msg : String)
  | noEntities
  | updated (secondsAgo : Nat)
deriving Repr, DecidableEq

/-- Go `fmt.Sprintf("%-15s", s)`: left-justify in a field of width 15. -/
def padRight15 (s : String) : String :=
  s ++ String.mk (List.replicate (15 - s.length) ' ')

/-- The row text built at `main.go:401-405`. -/
def rowText (e : Entity) : String :=
  padRight15 e.Name ++ " " ++ (if e.HasAlert then "[red]ALERT" else "[green]OK")

/-- The batching loop of `updateListView` (`main.go:390-396`): slices
`entitiesCopy[start:end]` of size 25 (the last one possibly shorter),
one per `QueueUpdateDraw` turn. -/
def paintBatches : List Entity → List (List Entity)
  | [] => []
  | x :: rest => (x :: rest).take 25 :: paintBatches ((x :: rest).drop 25)
termination_by l => l.length
decreasing_by simp [List.drop]; omega

/-- Selection restore after the final batch (`main.go:413-424`):
negative indices and indices at or past the end default to 0 (total is
positive whenever this runs). -/
def clampSelection (selected : Int) (total : Nat) : Int :=
  let sel := if selected < 0 ∧ 0 < total then 0 else selected
  if sel ≥ (total : Int) then 0 else sel

/-- Observable result of one `updateListView` call. -/
structure RenderResult where
  status : StatusLine
  rows : List String
  batches : Nat
  finalSelection : Option Int
deriving Repr, DecidableEq

/-- `updateListView` from `main.go:348-430`: the status line follows the
priority chain in-progress > error > empty > updated; the empty-set
branches (`main.go:367-369` and `main.go:380-382`) return before any row
is added; otherwise the rows are painted in batches of 25 and the
selection is restored, clamped, after the final batch. -/
def updateListView (entities : List Entity) (inProgress : Bool)
    (errMsg : String) (selected : Int) (secondsAgo : Nat) : RenderResult :=
  let status :=
    if inProgress then StatusLine.fetching
    else if errMsg ≠ "" then StatusLine.error errMsg
    else if entities.length = 0 then StatusLine.noEntities
    else StatusLine.updated secondsAgo
  if entities.length = 0 then
    ⟨status, [], 0, none⟩
  else
    ⟨status,
     ((paintBatches entities).map (fun batch => batch.map rowText)).flatten,
     (paintBatches entities).length,
     some (clampSelection selected entities.length)⟩

/-- Concrete search state from the spec's cycling example: entities
`alpha`, `beta`, `alpha2`, query `alpha`, cursor seeded to `-1`. -/
def alphaState : AppState :=
  ⟨[{ Entity.empty with Name := "alpha" },
    { Entity.empty with Name := "beta" },
    { Entity.empty with Name := "alpha2" }],
   0, false, 0, "", "alpha", -1⟩

/-! ## Theorems -/

/-- Helper: `find?` over `List.range n` returns the least index below
`n` satisfying the predicate. -/
theorem find?_range_spec (p : Nat → Bool) :
    ∀ n i, (List.range n).find? p = some i →
      p i = true ∧ i < n ∧ ∀ j < i, p j = false := by
  intro n
  induction n with
  | zero => intro i h; simp at h
  | succ n ih =>
    intro i h
    rw [List.range_succ, List.find?_append] at h
    cases hfn : List.find? p (List.range n) with
    | some a =>
      rw [hfn] at h
      simp only [Option.or_some] at h
      injection h with h'
      subst h'
      obtain ⟨hp, hlt, hmin⟩ := ih a hfn
      exact ⟨hp, Nat.lt_succ_of_lt hlt, hmin⟩
    | none =>
      rw [hfn] at h
      simp only [Option.none_or] at h
      have hall : ∀ x ∈ List.range n, ¬ p x = true := List.find?_eq_none.mp hfn
      by_cases hp : p n = true
      · simp only [List.find?_cons, hp, List.find?_nil] at h
        obtain rfl : n = i := by injection h
        refine ⟨hp, Nat.lt_succ_self _, ?_⟩
        intro j hj
        have := hall j (List.mem_range.mpr hj)
        simpa using this
      · simp only [List.find?_cons] at h
        rw [Bool.eq_false_iff.mpr hp] at h
        simp at h

/-- C1: the claim says `FetchEntities` never raises to its caller, but the
debug-log line at `newrelic.go:94` slices `config.APIKey[:10]` after the
credential check and before the HTTP call, so any configuration with a
non-empty API key shorter than 10 bytes (and a non-empty account ID)
makes `FetchEntities` panic instead of returning an `EntityList`. -/
theorem c1_fetchEntities_panics_on_short_key :
    FetchEntities ⟨"short", "1", 30⟩ (FetchOutcome.sent (HttpOutcome.ok [])) =
      Except.error ⟨"runtime error: slice bounds out of range"⟩ := by
  rfl

/-- C2: when `refreshInProgress` is already true, `refreshEntities`
returns immediately with the state unchanged (entities, error message
and `lastRefresh` untouched) and performs no fetch. -/
theorem c2_single_flight_guard (st : AppState) (fetched : EntityList)
    (now : Nat) (h : st.refreshInProgress = true) :
    refreshEntities st fetched now = (st, false) := by
  simp [refreshEntities, h]

/-- Witness for C2 at a concrete in-progress state. -/
theorem c2_single_flight_guard_witness :
    refreshEntities ⟨[], 0, true, 0, "old", "", -1⟩ ⟨[Entity.empty], "e"⟩ 7 =
      (⟨[], 0, true, 0, "old", "", -1⟩, false) :=
  c2_single_flight_guard ⟨[], 0, true, 0, "old", "", -1⟩ ⟨[Entity.empty], "e"⟩ 7 rfl

/-- C3: when the structured-probe response yields at least one incident,
`fetchIncidents` issues no further HTTP request (total exactly the one
probe request, so no re-issued broader query) and never invokes the
legacy REST violations fallback. -/
theorem c3_stage_ordering (probeBody : Option Json) (restNet : RestOutcome)
    (entities : List Entity)
    (h : 1 ≤ (extractIncidentsGeneric probeBody).length) :
    (fetchIncidents (ProbeOutcome.body probeBody) restNet entities).restCalled
        = false ∧
    (fetchIncidents (ProbeOutcome.body probeBody) restNet entities).httpRequests
        = 1 := by
  have hne : ¬ (extractIncidentsGeneric probeBody).length = 0 := by omega
  simp [fetchIncidents, hne]

/-- Witness for C3 at a probe response holding one incident object. -/
theorem c3_stage_ordering_witness :
    1 ≤ (extractIncidentsGeneric (some (Json.obj
        [("title", Json.str "T"), ("entityGuid", Json.str "g")]))).length ∧
    (fetchIncidents (ProbeOutcome.body (some (Json.obj
        [("title", Json.str "T"), ("entityGuid", Json.str "g")])))
      (RestOutcome.ok [("violations", Json.arr [])]) []).restCalled = false :=
  ⟨by decide,
   (c3_stage_ordering (some (Json.obj
       [("title", Json.str "T"), ("entityGuid", Json.str "g")]))
     (RestOutcome.ok [("violations", Json.arr [])]) [] (by decide)).1⟩

/-- C5: the REST fallback's name match holds exactly when, after
case-folding both strings, either one is a contiguous substring of the
other; in particular entity `db-01` matches target `DB-01-PROD`. -/
theorem c5_name_matching :
    (∀ e t : String, nameMatches e t = true ↔
      ((goToLower t).data <:+: (goToLower e).data ∨
       (goToLower e).data <:+: (goToLower t).data)) ∧
    nameMatches "db-01" "DB-01-PROD" = true := by
  constructor
  · intro e t
    simp [nameMatches, goContains]
  · decide

/-- Witness for C5 at the concrete pair from the spec. -/
theorem c5_name_matching_witness :
    nameMatches "db-01" "DB-01-PROD" = true :=
  c5_name_matching.2

/-- C9 counterexample: the claim says every synthetic entity's address
equals its name, but the first synthetic entity is named `web-01` with
connection target `192.168.1.10`. -/
theorem c9_counterexample :
    ¬ ∀ e ∈ (addTestEntities ⟨[], ""⟩).Entities,
        e.ConnectionInfo = e.Name := by
  decide

/-- C9 (amended): the synthetic fallback entities carry fixed IP-address
connection targets `192.168.1.10`–`192.168.1.14`, distinct from their
names, one per host in dataset order. -/
theorem c9_synthetic_addresses (l : EntityList) :
    (addTestEntities l).Entities.map Entity.ConnectionInfo =
      ["192.168.1.10", "192.168.1.11", "192.168.1.12",
       "192.168.1.13", "192.168.1.14"] ∧
    (addTestEntities l).Entities.map Entity.Name =
      ["web-01", "api-02", "db-01", "cache-01", "monitor-01"] ∧
    ∀ e ∈ (addTestEntities l).Entities, e.ConnectionInfo ≠ e.Name := by
  refine ⟨rfl, rfl, ?_⟩
  have h : (addTestEntities l).Entities = (addTestEntities ⟨[], ""⟩).Entities := rfl
  rw [h]
  decide

/-- Helper: any non-negative result of `findNextMatch` comes from a
least matching scan offset. -/
theorem findNextMatch_some_spec (st : AppState) (idx : Nat)
    (h : (findNextMatch st).1 = (idx : Int)) :
    idx < st.entities.length ∧ entityMatchAt st idx = true ∧
    ∃ i < st.entities.length,
      idx = (searchStart st + i) % st.entities.length ∧
      ∀ j < i,
        entityMatchAt st ((searchStart st + j) % st.entities.length) = false := by
  unfold findNextMatch at h
  by_cases hq : goToLower st.searchQuery = ""
  · rw [if_pos hq] at h
    have h' : (-1 : Int) = (idx : Int) := h
    omega
  · rw [if_neg hq] at h
    split at h
    next i heq =>
      have h2 : ((((searchStart st + i) % st.entities.length : Nat) : Int))
          = (idx : Int) := h
      have hidx : (searchStart st + i) % st.entities.length = idx := by
        exact_mod_cast h2
      obtain ⟨hp, hlt, hmin⟩ := find?_range_spec _ _ _ heq
      have hnpos : 0 < st.entities.length :=
        lt_of_le_of_lt (Nat.zero_le i) hlt
      subst hidx
      exact ⟨Nat.mod_lt _ hnpos, hp, i, hlt, rfl, hmin⟩
    next heq =>
      have h' : (-1 : Int) = (idx : Int) := h
      omega

/-- C6: `findNextMatch` returns not-found at once for the empty query
(state untouched); any found index is in range, its entity's case-folded
name contains the case-folded query, and it is the first such position
in the cyclic scan that starts at `lastSearchPos + 1` modulo the set
size and examines each position at most once; on the spec's example
(`alpha`, `beta`, `alpha2`, query `alpha`, cursor `-1`) three successive
calls return 0, then 2, then 0. -/
theorem c6_search_semantics :
    (∀ st : AppState, st.searchQuery = "" → findNextMatch st = (-1, st)) ∧
    (∀ (st : AppState) (idx : Nat), (findNextMatch st).1 = (idx : Int) →
      idx < st.entities.length ∧ entityMatchAt st idx = true ∧
      ∃ i < st.entities.length,
        idx = (searchStart st + i) % st.entities.length ∧
        ∀ j < i,
          entityMatchAt st ((searchStart st + j) % st.entities.length)
            = false) ∧
    ((findNextMatch alphaState).1 = 0 ∧
     (findNextMatch (findNextMatch alphaState).2).1 = 2 ∧
     (findNextMatch (findNextMatch (findNextMatch alphaState).2).2).1 = 0) := by
  refine ⟨?_, ?_, by decide⟩
  · intro st hq
    unfold findNextMatch
    rw [if_pos (by rw [hq]; rfl)]
  · intro st idx h
    exact findNextMatch_some_spec st idx h

/-- Witness for C6: the empty-query clause at a concrete state, and the
found-index clause at the first call of the cycling example. -/
theorem c6_search_semantics_witness :
    findNextMatch ⟨[Entity.empty], 0, false, 0, "", "", 4⟩ =
      (-1, ⟨[Entity.empty], 0, false, 0, "", "", 4⟩) ∧
    (0 < alphaState.entities.length ∧ entityMatchAt alphaState 0 = true) := by
  refine ⟨c6_search_semantics.1 _ rfl, ?_⟩
  have h := (c6_search_semantics.2.1 alphaState 0) c6_search_semantics.2.2.1
  exact ⟨h.1, h.2.1⟩

/-- C10: `findNextMatch` is total on the empty entity set — it returns
`-1` with the state unchanged (the modulo expression of the loop body is
never evaluated because the loop runs zero iterations), and every
non-negative result is strictly below the entity-list length. -/
theorem c10_findNextMatch_safe :
    (∀ st : AppState, st.entities = [] → findNextMatch st = (-1, st)) ∧
    (∀ st : AppState, 0 ≤ (findNextMatch st).1 →
      (findNextMatch st).1 < (st.entities.length : Int)) := by
  constructor
  · intro st h
    unfold findNextMatch
    by_cases hq : goToLower st.searchQuery = ""
    · rw [if_pos hq]
    · rw [if_neg hq]
      simp [h]
  · intro st h0
    obtain ⟨idx, hidx⟩ : ∃ idx : Nat, (findNextMatch st).1 = (idx : Int) :=
      ⟨(findNextMatch st).1.toNat, (Int.toNat_of_nonneg h0).symm⟩
    rw [hidx]
    exact_mod_cast (findNextMatch_some_spec st idx hidx).1

/-- Witness for C10: the empty-set clause at a concrete non-empty query,
and the bound clause at the cycling example's first call. -/
theorem c10_findNextMatch_safe_witness :
    findNextMatch ⟨[], 3, false, 0, "q", "alpha", -1⟩ =
      (-1, ⟨[], 3, false, 0, "q", "alpha", -1⟩) ∧
    (findNextMatch alphaState).1 < (alphaState.entities.length : Int) := by
  refine ⟨c10_findNextMatch_safe.1 _ rfl, ?_⟩
  exact c10_findNextMatch_safe.2 alphaState (by decide)

/-- Helper: the batching loop produces exactly `⌈N / 25⌉` batches. -/
theorem paintBatches_length (l : List Entity) :
    (paintBatches l).length = (l.length + 24) / 25 := by
  induction l using paintBatches.induct with
  | case1 => simp [paintBatches]
  | case2 x rest ih =>
      rw [paintBatches]
      simp only [List.length_cons, List.length_drop] at ih ⊢
      rw [ih]
      omega

/-- Helper: the two clamping conditionals of `main.go:414-419` collapse
to a single case split. -/
theorem clampSelection_cases (selected : Int) (total : Nat) :
    clampSelection selected total =
      if selected < 0 ∧ 0 < total then 0
      else if selected ≥ (total : Int) then 0 else selected := by
  simp only [clampSelection]
  split
  · split <;> rfl
  · rfl

/-- C7 counterexample: the claim says an empty entity list always shows
the placeholder status line, but with a non-empty error message and no
refresh in progress `updateListView` shows the error line instead
(`main.go:365-366` takes priority over the placeholder branch). -/
theorem c7_counterexample :
    ¬ ((updateListView [] false "boom" 0 0).status = StatusLine.noEntities) := by
  decide

/-- C7 (amended): for a non-empty entity list, `updateListView` paints
exactly `⌈N / 25⌉` batches (3 for `N = 60`) and restores a selection in
`[0, N-1]`, with indices below 0 or at/after `N` defaulting to 0; for an
empty entity list no rows and no batches are produced, and the
placeholder status line is shown exactly when no refresh is in progress
and the error message is empty (in-progress and error lines take
priority). -/
theorem c7_render_batching :
    (∀ (entities : List Entity) (inProgress : Bool) (errMsg : String)
        (sel : Int) (secs : Nat), entities ≠ [] →
      (updateListView entities inProgress errMsg sel secs).batches =
          (entities.length + 24) / 25 ∧
      (updateListView entities inProgress errMsg sel secs).finalSelection =
          some (clampSelection sel entities.length) ∧
      0 ≤ clampSelection sel entities.length ∧
      clampSelection sel entities.length < (entities.length : Int) ∧
      ((sel < 0 ∨ (entities.length : Int) ≤ sel) →
        clampSelection sel entities.length = 0) ∧
      (0 ≤ sel → sel < (entities.length : Int) →
        clampSelection sel entities.length = sel)) ∧
    ((updateListView (List.replicate 60 Entity.empty) false "" 0 7).batches
        = 3) ∧
    (∀ (inProgress : Bool) (errMsg : String) (sel : Int) (secs : Nat),
      (updateListView [] inProgress errMsg sel secs).rows = [] ∧
      (updateListView [] inProgress errMsg sel secs).batches = 0 ∧
      ((updateListView [] inProgress errMsg sel secs).status =
          StatusLine.noEntities ↔ inProgress = false ∧ errMsg = "")) := by
  refine ⟨?_, ?_, ?_⟩
  · intro entities inProgress errMsg sel secs hne
    have hlen : entities.length ≠ 0 := by
      simpa [List.length_eq_zero] using hne
    constructor
    · simp [updateListView, hlen, paintBatches_length]
    constructor
    · simp [updateListView, hlen]
    have hpos : 0 < entities.length := Nat.pos_of_ne_zero hlen
    constructor
    · rw [clampSelection_cases]; split_ifs <;> omega
    constructor
    · rw [clampSelection_cases]; split_ifs <;> omega
    constructor
    · intro hout
      rw [clampSelection_cases]; split_ifs <;> omega
    · intro h1 h2
      rw [clampSelection_cases]; split_ifs <;> omega
  · have : (List.replicate 60 (Entity.empty)).length = 60 := by simp
    simp [updateListView, paintBatches_length, this]
  · intro inProgress errMsg sel secs
    refine ⟨by simp [updateListView], by simp [updateListView], ?_⟩
    cases inProgress <;> by_cases he : errMsg = "" <;>
      simp [updateListView, he]

/-- Witness for C7 at 60 entities with an out-of-range stored selection:
3 batches and selection restored to 0. -/
theorem c7_render_batching_witness :
    (updateListView (List.replicate 60 Entity.empty) false "" 99 7).batches = 3 ∧
    (updateListView (List.replicate 60 Entity.empty) false "" 99 7).finalSelection
      = some 0 := by
  have h := (c7_render_batching.1 (List.replicate 60 Entity.empty)
    false "" 99 7 (by decide))
  refine ⟨?_, ?_⟩
  · rw [h.1]; decide
  · rw [h.2.1]
    have h0 : clampSelection 99 (List.replicate 60 (Entity.empty : Entity)).length
        = 0 := h.2.2.2.2.1 (by right; decide)
    rw [h0]

/-- Occurrence of a JSON value inside another, following exactly the
edges the walker traverses: an object's field values and an array's
items, at any depth. -/
inductive SubJson : Json → Json → Prop where
  | refl (j : Json) : SubJson j j
  | inObj {j v : Json} {k : String} {fields : List (String × Json)} :
      (k, v) ∈ fields → SubJson j v → SubJson j (Json.obj fields)
  | inArr {j v : Json} {items : List Json} :
      v ∈ items → SubJson j v → SubJson j (Json.arr items)

/-- Helper: whatever a field's value yields is part of what the field
walk yields. -/
theorem walkFields_subset {k : String} {v : Json}
    {fields : List (String × Json)} (hmem : (k, v) ∈ fields) :
    ∀ x ∈ walkJson v, x ∈ walkFields fields := by
  induction fields with
  | nil => cases hmem
  | cons hd tl ih =>
      intro x hx
      rcases List.mem_cons.mp hmem with heq | htl
      · obtain ⟨rfl, rfl⟩ : hd.1 = k ∧ hd.2 = v := by
          cases heq; exact ⟨rfl, rfl⟩
        rw [show walkFields (hd :: tl) = walkJson hd.2 ++ walkFields tl from rfl]
        exact List.mem_append_left _ hx
      · rw [show walkFields (hd :: tl) = walkJson hd.2 ++ walkFields tl from rfl]
        exact List.mem_append_right _ (ih htl x hx)

/-- Helper: whatever an array item yields is part of what the item walk
yields. -/
theorem walkItems_subset {v : Json} {items : List Json} (hmem : v ∈ items) :
    ∀ x ∈ walkJson v, x ∈ walkItems items := by
  induction items with
  | nil => cases hmem
  | cons hd tl ih =>
      intro x hx
      rcases List.mem_cons.mp hmem with heq | htl
      · subst heq
        exact List.mem_append_left _ hx
      · exact List.mem_append_right _ (ih htl x hx)

/-- Helper: an object node carrying a non-empty `title` string and an
`entityGuid` string emits a candidate with exactly that title and the
GUID at the head of its identifier list. -/
theorem candidateOfFields_hit {fields : List (String × Json)} {t g : String}
    (ht : getStr fields "title" = some t) (htne : t ≠ "")
    (hg : getStr fields "entityGuid" = some g) :
    ∃ inc ∈ candidateOfFields fields, inc.Title = t ∧ g ∈ inc.GUIDs := by
  unfold candidateOfFields
  rw [ht]
  have hguids : guidsOfFields fields = g :: ((match getStr fields "guid" with
      | some g' => [g']
      | none => []) ++ (entityArrayKeys.map (fun key =>
        match getArr fields key with
        | some arr => (arr.map guidsOfArrayItem).flatten
        | none => [])).flatten) := by
    unfold guidsOfFields
    rw [hg]
    simp
  rw [hguids]
  simp only [Option.getD_some]
  rw [if_pos ⟨Or.inl htne, by simp⟩]
  simp

/-- C4: if the payload contains, at any nesting depth, an object with a
non-empty string field `title` and a string field `entityGuid`, the
generic extractor returns a candidate whose title is that string and
whose identifier list contains that GUID. -/
theorem c4_heuristic_walker (root : Json) (fields : List (String × Json))
    (t g : String) (hsub : SubJson (Json.obj fields) root)
    (ht : getStr fields "title" = some t) (htne : t ≠ "")
    (hg : getStr fields "entityGuid" = some g) :
    ∃ inc ∈ extractIncidentsGeneric (some root),
      inc.Title = t ∧ g ∈ inc.GUIDs := by
  show ∃ inc ∈ walkJson root, inc.Title = t ∧ g ∈ inc.GUIDs
  induction hsub with
  | refl =>
      obtain ⟨inc, hmem, hprop⟩ := candidateOfFields_hit ht htne hg
      exact ⟨inc, by
        rw [show walkJson (Json.obj fields) =
          candidateOfFields fields ++ walkFields fields from rfl]
        exact List.mem_append_left _ hmem, hprop⟩
  | inObj hmem _ ih =>
      obtain ⟨inc, hmemw, hprop⟩ := ih
      refine ⟨inc, ?_, hprop⟩
      rw [show walkJson (Json.obj _) =
        candidateOfFields _ ++ walkFields _ from rfl]
      exact List.mem_append_right _ (walkFields_subset hmem inc hmemw)
  | inArr hmem _ ih =>
      obtain ⟨inc, hmemw, hprop⟩ := ih
      refine ⟨inc, ?_, hprop⟩
      rw [show walkJson (Json.arr _) = walkItems _ from rfl]
      exact walkItems_subset hmem inc hmemw

/-- The spec's witness payload: the incident object is nested three
levels deep, beside unrelated sibling objects. -/
def deepPayload : Json :=
  Json.obj
    [("data", Json.obj
        [("noise", Json.obj [("x", Json.num 1)]),
         ("level2", Json.obj
            [("sibling", Json.str "unrelated"),
             ("level3", Json.obj
                [("title", Json.str "X"),
                 ("entityGuid", Json.str "g1")])])]),
     ("other", Json.arr [Json.num 7])]

/-- Witness for C4 at the three-level-deep payload. -/
theorem c4_heuristic_walker_witness :
    ∃ inc ∈ extractIncidentsGeneric (some deepPayload),
      inc.Title = "X" ∧ "g1" ∈ inc.GUIDs := by
  refine c4_heuristic_walker deepPayload
    [("title", Json.str "X"), ("entityGuid", Json.str "g1")]
    "X" "g1" ?_ rfl (by decide) rfl
  refine SubJson.inObj (List.Mem.head _) ?_
  refine SubJson.inObj (List.Mem.tail _ (List.Mem.head _)) ?_
  refine SubJson.inObj (List.Mem.tail _ (List.Mem.head _)) ?_
  exact SubJson.refl _

/-- Helper: matching a sequence of incidents that all carry exactly the
GUID of a single entity folds the per-match update over that entity. -/
theorem matchIncidents_single :
    ∀ (incs : List incidentGeneric) (e : Entity),
      (∀ inc ∈ incs, inc.GUIDs = [e.GUID]) →
      matchIncidents incs [e] =
        [incs.foldl (fun x inc => applyIncidentTo inc x) e]
  | [], _, _ => rfl
  | inc :: rest, e, h => by
      have hg : inc.GUIDs = [e.GUID] := h inc (List.mem_cons_self _ _)
      have hstep : inc.GUIDs.foldl
          (fun ents' g => applyGuidMatch inc g ents') [e] =
          [applyIncidentTo inc e] := by
        rw [hg]
        simp [applyGuidMatch]
      have hguid : (applyIncidentTo inc e).GUID = e.GUID := rfl
      calc matchIncidents (inc :: rest) [e]
          = matchIncidents rest [applyIncidentTo inc e] := by
            unfold matchIncidents
            rw [List.foldl_cons, hstep]
        _ = [rest.foldl (fun x i => applyIncidentTo i x)
              (applyIncidentTo inc e)] := by
            refine matchIncidents_single rest (applyIncidentTo inc e) ?_
            intro i hi
            rw [hguid]
            exact h i (List.mem_cons_of_mem _ hi)
        _ = [(inc :: rest).foldl (fun x i => applyIncidentTo i x) e] := by
            rw [List.foldl_cons]

/-- Helper: after at least one match the alert flag is set. -/
theorem foldl_apply_hasAlert :
    ∀ (incs : List incidentGeneric) (e : Entity), incs ≠ [] →
      (incs.foldl (fun x inc => applyIncidentTo inc x) e).HasAlert = true
  | [], _, h => absurd rfl h
  | inc :: rest, e, _ => by
      rw [List.foldl_cons]
      cases rest with
      | nil => rfl
      | cons r rs =>
          exact foldl_apply_hasAlert (r :: rs) _ (by simp)

/-- Helper: the alert message after a sequence of matches is the last
match's description. -/
theorem foldl_apply_message :
    ∀ (incs : List incidentGeneric) (e : Entity) (h : incs ≠ []),
      (incs.foldl (fun x inc => applyIncidentTo inc x) e).AlertMessage =
        (incs.getLast h).Description
  | [], _, h => absurd rfl h
  | [inc], e, _ => rfl
  | inc :: r :: rs, e, _ => by
      rw [List.foldl_cons,
        List.getLast_cons (by simp : r :: rs ≠ [])]
      exact foldl_apply_message (r :: rs) _ (by simp)

/-- Helper: the alert title after a sequence of matches is the last
non-empty title among them (the entity's previous title when none). -/
theorem foldl_apply_title :
    ∀ (incs : List incidentGeneric) (e : Entity),
      (incs.foldl (fun x inc => applyIncidentTo inc x) e).AlertType =
        incs.foldl
          (fun acc inc => if inc.Title ≠ "" then inc.Title else acc)
          e.AlertType
  | [], _ => rfl
  | inc :: rest, e => by
      rw [List.foldl_cons, List.foldl_cons]
      rw [foldl_apply_title rest (applyIncidentTo inc e)]
      rfl

/-- C8 counterexample: two incidents hit the same entity; the second has
an empty title, and the final alert title is still the first incident's
`A` (only the detail was overwritten), so a later match does not
overwrite all fields written by earlier ones. -/
theorem c8_counterexample :
    (matchIncidents
        [⟨"A", "d1", ["g"]⟩, ⟨"", "d2", ["g"]⟩]
        [{ Entity.empty with GUID := "g" }]).map Entity.AlertType = ["A"] ∧
    (matchIncidents
        [⟨"A", "d1", ["g"]⟩, ⟨"", "d2", ["g"]⟩]
        [{ Entity.empty with GUID := "g" }]).map Entity.AlertMessage
      = ["d2"] := by
  decide

/-- C8 (amended): on every match the correlator sets `hasAlert` and
overwrites the alert detail; the alert title is overwritten only when
the matching incident's (or violation's) title is non-empty, so across
several matches on one entity the detail is the last match's and the
title is the last non-empty one. -/
theorem c8_match_side_effect :
    (∀ (inc : incidentGeneric) (e : Entity),
      (applyIncidentTo inc e).HasAlert = true ∧
      (applyIncidentTo inc e).AlertMessage = inc.Description ∧
      (applyIncidentTo inc e).AlertType =
        (if inc.Title ≠ "" then inc.Title else e.AlertType)) ∧
    (∀ (title details : String) (e : Entity),
      (applyViolationTo title details e).HasAlert = true ∧
      (applyViolationTo title details e).AlertMessage = details ∧
      (applyViolationTo title details e).AlertType =
        (if title ≠ "" then title else e.AlertType)) ∧
    (∀ (incs : List incidentGeneric) (e : Entity)
        (h : ∀ inc ∈ incs, inc.GUIDs = [e.GUID]) (hne : incs ≠ []),
      ∃ e', matchIncidents incs [e] = [e'] ∧
        e'.HasAlert = true ∧
        e'.AlertMessage = (incs.getLast hne).Description ∧
        e'.AlertType = incs.foldl
          (fun acc inc => if inc.Title ≠ "" then inc.Title else acc)
          e.AlertType) := by
  refine ⟨fun inc e => ⟨rfl, rfl, rfl⟩, fun t d e => ⟨rfl, rfl, rfl⟩, ?_⟩
  intro incs e h hne
  refine ⟨incs.foldl (fun x inc => applyIncidentTo inc x) e,
    matchIncidents_single incs e h, foldl_apply_hasAlert incs e hne,
    foldl_apply_message incs e hne, foldl_apply_title incs e⟩

/-- Witness for C8 at the two-match example: alert set, detail from the
last match, title from the last non-empty one. -/
theorem c8_match_side_effect_witness :
    ∃ e', matchIncidents
        [⟨"A", "d1", ["g"]⟩, ⟨"", "d2", ["g"]⟩]
        [{ Entity.empty with GUID := "g" }] = [e'] ∧
      e'.HasAlert = true ∧
      e'.AlertMessage = (([⟨"A", "d1", ["g"]⟩, ⟨"", "d2", ["g"]⟩] :
          List incidentGeneric).getLast (by simp)).Description ∧
      e'.AlertType = ([⟨"A", "d1", ["g"]⟩, ⟨"", "d2", ["g"]⟩] :
          List incidentGeneric).foldl
            (fun acc inc => if inc.Title ≠ "" then inc.Title else acc)
            ({ Entity.empty with GUID := "g" } : Entity).AlertType :=
  c8_match_side_effect.2.2
    [⟨"A", "d1", ["g"]⟩, ⟨"", "d2", ["g"]⟩]
    { Entity.empty with GUID := "g" }
    (by decide) (by simp)

end Osiris
